import Mathlib

/-!
# Verification of the udp-ws-bridge relay core

Shallow embedding of the relay engine in `src/main.ts` of udp-ws-bridge:
the shared `sentMessages` echo-suppression table, the periodic cleanup
timer, the per-connection `udpHandler` fan-out, and the websocket
`message` / `open` / `close` handlers.  Times are in integer milliseconds
as returned by `Date.now()`.  Payloads are byte sequences; the table key
`JSON.stringify` applied to the byte array is injective on byte lists, so
the byte list itself serves as the key in the embedding.
-/

namespace UdpWsBridge

/-- A UDP payload: an ordered sequence of bytes as produced by the code
after `Buffer.from` coercion, so each entry is below 256 in every
reachable state; the embedding does not need to enforce that bound. -/
abbrev Payload := List Nat

/-- Embeds `const sentMessages = new Map<string, number>()`: an
insertion-ordered association list from keys to registration timestamps,
with at most one entry per key in reachable states. -/
abbrev SentMap := List (Payload × Nat)

/-- Embeds `const NO_ECHO_TIMEOUT = 100; // milliseconds`. -/
def NO_ECHO_TIMEOUT : Nat := 100

/-- Embeds `sentMessages.has(key)`: some entry carries exactly this key. -/
def mapHas (k : Payload) (m : SentMap) : Bool :=
  m.any (fun e => decide (e.1 = k))

/-- Embeds `sentMessages.set(key, ts)`: replace the entry holding that key
if present (JS Map update keeps insertion order), otherwise append. -/
def mapSet (k : Payload) (v : Nat) : SentMap → SentMap
  | [] => [(k, v)]
  | e :: rest => if e.1 = k then (k, v) :: rest else e :: mapSet k v rest

/-- Embeds one run of the cleanup timer body in `main.ts`: delete every
entry with `now - timestamp > NO_ECHO_TIMEOUT`.  Natural subtraction
truncates at zero exactly as a negative JS difference fails the `>` test. -/
def sweepOnce (now : Nat) (m : SentMap) : SentMap :=
  m.filter (fun e => decide (¬ now - e.2 > NO_ECHO_TIMEOUT))

/-- Embeds the key computation `JSON.stringify` of the object holding only
the byte array `data: [...bytes]` — used identically on the send path and
in `udpHandler`.  The stringification is injective on byte lists, so the
embedding uses the byte list itself as the key. -/
def msgKey (payload : Payload) : Payload := payload

/-- Embeds `Buffer.from(array)` for an array of integer entries: each
entry is truncated to an octet, i.e. reduced modulo 256 (Node coerces via
a bitwise and with 255, which agrees with the Euclidean remainder). -/
def bufferFrom (xs : List Int) : Payload :=
  xs.map (fun x => (x % 256).toNat)

/-- The `data` field of a parsed client message: either an array of
integer numbers, or a value on which `Buffer.from` throws a TypeError
(e.g. a missing field), which the surrounding try/catch swallows. -/
inductive JsData where
  | arr (xs : List Int)
  | bad
deriving DecidableEq

/-- A successfully parsed client JSON message, with the fields the handler
reads: the `type` discriminator (absent or any string), `address`, `port`
and `data`.  `port` is modelled as a natural number. -/
structure JsonMsg where
  type : Option String
  address : String
  port : Nat
  data : JsData
deriving DecidableEq

/-- A raw websocket text frame: either `JSON.parse` throws (the catch
block logs and ignores), or it yields a parsed message. -/
inductive RawInput where
  | notJson
  | parsed (m : JsonMsg)
deriving DecidableEq

/-- One connected websocket client: its identity and whether
`ws.readyState === WebSocket.OPEN` holds. -/
structure Client where
  cid : Nat
  readyOpen : Bool
deriving DecidableEq

/-- The relay's mutable state: the shared suppression table and the list
of connections whose `udpHandler` is currently registered on the socket,
in registration order. -/
structure BridgeState where
  sentMessages : SentMap
  clients : List Client
deriving DecidableEq

/-- The `rinfo` of an inbound datagram: source address and port. -/
structure RInfo where
  address : String
  port : Nat
deriving DecidableEq

/-- The outbound `udp-message` envelope pushed to a client (its constant
`type` field is omitted): source address, source port, payload bytes. -/
structure UdpMessageEnv where
  address : String
  port : Nat
  data : Payload
deriving DecidableEq

/-- Observable side effects of the handlers, in program order:
a `sentMessages.set` registration, a `udpSocket.send`, or a `ws.send`
push of a `udp-message` envelope to one client. -/
inductive Action where
  | register (key : Payload) (ts : Nat)
  | udpOut (address : String) (port : Nat) (payload : Payload)
  | wsPush (cid : Nat) (env : UdpMessageEnv)
deriving DecidableEq

/-- The `udp-send` discriminator string. -/
def kindSend : String := "udp-send"

/-- The `udp-send-no-echo` discriminator string. -/
def kindSendNoEcho : String := "udp-send-no-echo"

/-- Embeds the websocket `message` handler body of `main.ts`: parse,
then two successive `if` tests on `msg.type` (at most one can hold, so
they are rendered as a chain); on `udp-send` build the buffer and send;
on `udp-send-no-echo` build the buffer, register its key with the current
time strictly before sending, then send.  A thrown `JSON.parse` or
`Buffer.from` lands in the catch block: log only, no state change, no
send. -/
def handleClientMsg (st : BridgeState) (raw : RawInput) (now : Nat) :
    BridgeState × List Action :=
  match raw with
  | .notJson => (st, [])
  | .parsed m =>
    if m.type = some kindSend then
      match m.data with
      | .arr xs => (st, [Action.udpOut m.address m.port (bufferFrom xs)])
      | .bad => (st, [])
    else if m.type = some kindSendNoEcho then
      match m.data with
      | .arr xs =>
        let buf := bufferFrom xs
        let key := msgKey buf
        ({ st with sentMessages := mapSet key now st.sentMessages },
          [Action.register key now, Action.udpOut m.address m.port buf])
      | .bad => (st, [])
    else (st, [])

/-- Embeds one connection's `udpHandler` closure: compute the key from
the payload only, skip if `sentMessages.has` it (without deleting), else
push the envelope when the socket is open, silently drop otherwise. -/
def udpHandler (sent : SentMap) (r : RInfo) (msg : Payload) (c : Client) :
    Option Action :=
  if mapHas (msgKey msg) sent then none
  else if c.readyOpen then
    some (Action.wsPush c.cid ⟨r.address, r.port, msg⟩)
  else none

/-- Embeds the arrival of one inbound datagram: every registered handler
runs in registration order against the same shared table; the state is
unchanged (handlers never delete — the comment in the source defers
deletion to the cleanup timer). -/
def handleDatagram (st : BridgeState) (r : RInfo) (msg : Payload) :
    BridgeState × List Action :=
  (st, st.clients.filterMap (udpHandler st.sentMessages r msg))

/-- Embeds the websocket `open` handler: register a fresh `udpHandler`
for this connection on the UDP socket. -/
def handleOpen (st : BridgeState) (cid : Nat) : BridgeState :=
  { st with clients := st.clients ++ [⟨cid, true⟩] }

/-- Embeds the websocket `close` handler: `udpSocket.off` removes that
connection's handler (the first matching listener). -/
def handleClose (st : BridgeState) (cid : Nat) : BridgeState :=
  { st with clients := st.clients.eraseP (fun c => decide (c.cid = cid)) }

/-- Embeds the `udpSocket.send` completion callback: on error it only
logs; it never touches `sentMessages` or the connections. -/
def udpSendCallback (st : BridgeState) (_err : Bool) : BridgeState := st

/-- The events the relay reacts to, each from the single event loop. -/
inductive Event where
  | wsOpen (cid : Nat)
  | wsClose (cid : Nat)
  | wsMessage (raw : RawInput) (now : Nat)
  | udpRecv (r : RInfo) (msg : Payload)
  | sweep (now : Nat)
  | sendResult (err : Bool)
deriving DecidableEq

/-- One event-loop step: dispatch to the embedded handler. -/
def step (st : BridgeState) : Event → BridgeState × List Action
  | .wsOpen cid => (handleOpen st cid, [])
  | .wsClose cid => (handleClose st cid, [])
  | .wsMessage raw now => handleClientMsg st raw now
  | .udpRecv r msg => handleDatagram st r msg
  | .sweep now => ({ st with sentMessages := sweepOnce now st.sentMessages }, [])
  | .sendResult err => (udpSendCallback st err, [])

/-- Run a sequence of events, keeping only the final state. -/
def run (st : BridgeState) (es : List Event) : BridgeState :=
  es.foldl (fun s e => (step s e).1) st

/-- The client identities pushed to by a batch of actions. -/
def pushTargets (acts : List Action) : List Nat :=
  acts.filterMap (fun a =>
    match a with
    | .wsPush cid _ => some cid
    | _ => none)

/-- Some envelope was pushed to this client id. -/
def pushedTo (acts : List Action) (cid : Nat) : Prop :=
  ∃ env, Action.wsPush cid env ∈ acts

/-- Stated from the specification's words (the code performs no such
check), for comparison with the embedded handler: every `data` entry is
an integer in the closed range 0 to 255, the port is a non-negative
integer (automatic for a natural number), and the address is non-empty. -/
def specValid (m : JsonMsg) : Bool :=
  (match m.data with
    | .arr xs => xs.all (fun x => decide (0 ≤ x ∧ x ≤ 255))
    | .bad => false)
  && decide (m.address ≠ "")

/-- Events whose timestamp cannot push a payload registered at `t0` out
of its suppression window: client messages never predate the
registration, and sweeps fire no later than the window's end. -/
def withinWindow (t0 : Nat) : Event → Prop
  | .wsMessage _ now => t0 ≤ now
  | .sweep now => now ≤ t0 + NO_ECHO_TIMEOUT
  | _ => True

/-- The suppression table holds an entry for this key registered no
earlier than `t0`. -/
def tracked (k : Payload) (t0 : Nat) (st : BridgeState) : Prop :=
  ∃ ts, (k, ts) ∈ st.sentMessages ∧ t0 ≤ ts

example :
    handleClientMsg ⟨[], []⟩
      (.parsed ⟨some kindSendNoEcho, "127.0.0.1", 6454, .arr [1, 2, 3]⟩) 7 =
    (⟨[([1, 2, 3], 7)], []⟩,
      [Action.register [1, 2, 3] 7, Action.udpOut "127.0.0.1" 6454 [1, 2, 3]]) := by
  decide

example : bufferFrom [256, -1, 300] = [0, 255, 44] := by decide

example :
    handleDatagram ⟨[([1, 2, 3], 7)], [⟨0, true⟩, ⟨1, true⟩]⟩
      ⟨"127.0.0.1", 50000⟩ [1, 2, 3] =
    (⟨[([1, 2, 3], 7)], [⟨0, true⟩, ⟨1, true⟩]⟩, []) := by decide

example :
    handleDatagram ⟨[([1, 2, 3], 7)], [⟨0, true⟩, ⟨1, true⟩]⟩
      ⟨"10.0.0.9", 50000⟩ [9, 9, 9] =
    (⟨[([1, 2, 3], 7)], [⟨0, true⟩, ⟨1, true⟩]⟩,
      [Action.wsPush 0 ⟨"10.0.0.9", 50000, [9, 9, 9]⟩,
       Action.wsPush 1 ⟨"10.0.0.9", 50000, [9, 9, 9]⟩]) := by decide

example : sweepOnce 107 [([1, 2, 3], 7)] = [([1, 2, 3], 7)] := by decide

example : sweepOnce 108 [([1, 2, 3], 7)] = [] := by decide

/-- The state right after a `udp-send-no-echo` message with integer-array
data is handled: the scenario shared by several properties below. -/
def afterNoEcho (st0 : BridgeState) (a : String) (p : Nat) (xs : List Int)
    (t0 : Nat) : BridgeState :=
  (step st0 (.wsMessage (.parsed ⟨some kindSendNoEcho, a, p, .arr xs⟩) t0)).1

theorem mapHas_iff (k : Payload) (m : SentMap) :
    mapHas k m = true ↔ ∃ ts, (k, ts) ∈ m := by
  simp only [mapHas, List.any_eq_true, decide_eq_true_eq]
  constructor
  · rintro ⟨⟨k', ts⟩, hmem, rfl⟩
    exact ⟨ts, hmem⟩
  · rintro ⟨ts, hmem⟩
    exact ⟨(k, ts), hmem, rfl⟩

theorem mem_mapSet_self (k : Payload) (v : Nat) (m : SentMap) :
    (k, v) ∈ mapSet k v m := by
  induction m with
  | nil => simp [mapSet]
  | cons e rest ih =>
    by_cases h : e.1 = k
    · simp [mapSet, h]
    · simp only [mapSet, if_neg h]
      exact List.mem_cons_of_mem _ ih

theorem mem_mapSet_of_ne {k k' : Payload} {ts v : Nat} {m : SentMap}
    (hne : k ≠ k') (hmem : (k, ts) ∈ m) : (k, ts) ∈ mapSet k' v m := by
  induction m with
  | nil => cases hmem
  | cons e rest ih =>
    rcases List.mem_cons.1 hmem with he | he
    · rw [mapSet, if_neg (by rw [← he]; simpa using hne)]
      rw [← he]
      exact List.mem_cons_self _ _
    · by_cases h : e.1 = k'
      · rw [mapSet, if_pos h]
        exact List.mem_cons_of_mem _ he
      · rw [mapSet, if_neg h]
        exact List.mem_cons_of_mem _ (ih he)

theorem mem_mapSet {e' : Payload × Nat} {k : Payload} {v : Nat} {m : SentMap}
    (h : e' ∈ mapSet k v m) : e' = (k, v) ∨ e' ∈ m := by
  induction m with
  | nil => simpa [mapSet] using h
  | cons e rest ih =>
    by_cases hk : e.1 = k
    · rw [mapSet, if_pos hk] at h
      rcases List.mem_cons.1 h with h | h
      · exact Or.inl h
      · exact Or.inr (List.mem_cons_of_mem _ h)
    · rw [mapSet, if_neg hk] at h
      rcases List.mem_cons.1 h with h | h
      · exact Or.inr (List.mem_cons.2 (Or.inl h))
      · rcases ih h with h | h
        · exact Or.inl h
        · exact Or.inr (List.mem_cons_of_mem _ h)

theorem mapHas_mapSet_self (k : Payload) (v : Nat) (m : SentMap) :
    mapHas k (mapSet k v m) = true :=
  (mapHas_iff _ _).2 ⟨v, mem_mapSet_self k v m⟩

theorem mapHas_mapSet_of_ne {k k' : Payload} {v : Nat} {m : SentMap}
    (h : k ≠ k') : mapHas k (mapSet k' v m) = mapHas k m := by
  cases hb : mapHas k m with
  | true =>
    obtain ⟨ts, hmem⟩ := (mapHas_iff k m).1 hb
    exact (mapHas_iff _ _).2 ⟨ts, mem_mapSet_of_ne h hmem⟩
  | false =>
    rw [← Bool.not_eq_true] at hb ⊢
    intro hc
    obtain ⟨ts, hmem⟩ := (mapHas_iff _ _).1 hc
    rcases mem_mapSet hmem with he | he
    · exact h (congrArg Prod.fst he)
    · exact hb ((mapHas_iff _ _).2 ⟨ts, he⟩)

theorem mem_sweepOnce {k : Payload} {ts now : Nat} {m : SentMap}
    (hmem : (k, ts) ∈ m) (h : now - ts ≤ NO_ECHO_TIMEOUT) :
    (k, ts) ∈ sweepOnce now m := by
  refine List.mem_filter.2 ⟨hmem, ?_⟩
  simp only [decide_eq_true_eq, not_lt]
  exact h

theorem mapHas_sweepOnce_false {k : Payload} {now : Nat} {m : SentMap}
    (h : ∀ ts, (k, ts) ∈ m → NO_ECHO_TIMEOUT < now - ts) :
    mapHas k (sweepOnce now m) = false := by
  rw [← Bool.not_eq_true, mapHas_iff]
  rintro ⟨ts, hmem⟩
  have hf := List.mem_filter.1 hmem
  have h2 := hf.2
  simp only [decide_eq_true_eq, not_lt] at h2
  exact absurd (h ts hf.1) (not_lt.2 h2)

theorem mapHas_after_expire {k : Payload} {t0 s : Nat} {m : SentMap}
    (hfresh : ∀ e ∈ m, e.1 ≠ k) (hs : t0 + NO_ECHO_TIMEOUT < s) :
    mapHas k (sweepOnce s (mapSet k t0 m)) = false := by
  apply mapHas_sweepOnce_false
  intro ts hmem
  rcases mem_mapSet hmem with h | h
  · have hts : ts = t0 := by
      have := congrArg Prod.snd h
      simpa using this
    subst hts
    have h100 : NO_ECHO_TIMEOUT = 100 := rfl
    omega
  · exact absurd rfl (hfresh _ h)

theorem handleDatagram_suppressed {st : BridgeState} {r : RInfo} {msg : Payload}
    (h : mapHas (msgKey msg) st.sentMessages = true) :
    (handleDatagram st r msg).2 = [] := by
  simp only [handleDatagram]
  refine List.filterMap_eq_nil_iff.2 (fun c _ => ?_)
  simp [udpHandler, h]

theorem handleDatagram_delivered {st : BridgeState} {r : RInfo} {msg : Payload}
    (h : mapHas (msgKey msg) st.sentMessages = false) :
    (handleDatagram st r msg).2 =
      st.clients.filterMap (fun c =>
        if c.readyOpen then
          some (Action.wsPush c.cid ⟨r.address, r.port, msg⟩)
        else none) := by
  simp only [handleDatagram]
  congr 1
  funext c
  simp [udpHandler, h]

theorem push_mem_of_open {st : BridgeState} {r : RInfo} {msg : Payload}
    {c : Client} (hc : c ∈ st.clients) (hopen : c.readyOpen = true)
    (h : mapHas (msgKey msg) st.sentMessages = false) :
    Action.wsPush c.cid ⟨r.address, r.port, msg⟩ ∈ (handleDatagram st r msg).2 := by
  rw [handleDatagram_delivered h]
  exact List.mem_filterMap.2 ⟨c, hc, by simp [hopen]⟩

theorem udpHandler_some {sent : SentMap} {r : RInfo} {msg : Payload}
    {c : Client} {a : Action} (h : udpHandler sent r msg c = some a) :
    a = Action.wsPush c.cid ⟨r.address, r.port, msg⟩ := by
  unfold udpHandler at h
  split at h
  · cases h
  · split at h
    · cases h
      rfl
    · cases h

theorem tracked_step {k : Payload} {t0 : Nat} {st : BridgeState} {e : Event}
    (ht : tracked k t0 st) (hw : withinWindow t0 e) :
    tracked k t0 (step st e).1 := by
  obtain ⟨ts, hmem, hts⟩ := ht
  cases e with
  | wsOpen cid => exact ⟨ts, hmem, hts⟩
  | wsClose cid => exact ⟨ts, hmem, hts⟩
  | udpRecv r msg => exact ⟨ts, hmem, hts⟩
  | sendResult err => exact ⟨ts, hmem, hts⟩
  | sweep now =>
    have hle : now - ts ≤ NO_ECHO_TIMEOUT := by
      have hw' : now ≤ t0 + NO_ECHO_TIMEOUT := hw
      omega
    exact ⟨ts, mem_sweepOnce hmem hle, hts⟩
  | wsMessage raw now =>
    have hw' : t0 ≤ now := hw
    cases raw with
    | notJson => exact ⟨ts, hmem, hts⟩
    | parsed m =>
      simp only [step, handleClientMsg]
      split
      · cases m.data with
        | arr xs => exact ⟨ts, hmem, hts⟩
        | bad => exact ⟨ts, hmem, hts⟩
      · split
        · cases m.data with
          | arr xs =>
            by_cases hk : msgKey (bufferFrom xs) = k
            · exact ⟨now, by rw [← hk]; exact mem_mapSet_self _ _ _, hw'⟩
            · exact ⟨ts, mem_mapSet_of_ne (fun he => hk he.symm) hmem, hts⟩
          | bad => exact ⟨ts, hmem, hts⟩
        · exact ⟨ts, hmem, hts⟩

theorem tracked_run {k : Payload} {t0 : Nat} {st : BridgeState}
    {es : List Event} (ht : tracked k t0 st)
    (hw : ∀ e ∈ es, withinWindow t0 e) : tracked k t0 (run st es) := by
  induction es generalizing st with
  | nil => exact ht
  | cons e rest ih =>
    exact ih (tracked_step ht (hw e (List.mem_cons_self _ _)))
      (fun e' he' => hw e' (List.mem_cons_of_mem _ he'))

theorem tracked_mapHas {k : Payload} {t0 : Nat} {st : BridgeState}
    (ht : tracked k t0 st) : mapHas k st.sentMessages = true := by
  obtain ⟨ts, hmem, -⟩ := ht
  exact (mapHas_iff _ _).2 ⟨ts, hmem⟩

theorem pushTargets_fanout (l : List Client) (env : UdpMessageEnv) :
    pushTargets (l.filterMap (fun c =>
      if c.readyOpen then some (Action.wsPush c.cid env) else none)) =
    l.filterMap (fun c => if c.readyOpen then some c.cid else none) := by
  induction l with
  | nil => rfl
  | cons c rest ih =>
    by_cases h : c.readyOpen
    · simp only [List.filterMap_cons, h, if_pos]
      simpa [pushTargets, List.filterMap_cons] using ih
    · simp only [List.filterMap_cons, h, if_neg, Bool.false_eq_true]
      exact ih

theorem eraseP_cid_not_mem {l : List Client} {d : Nat}
    (hnodup : (l.map Client.cid).Nodup) :
    ∀ c ∈ l.eraseP (fun c => decide (c.cid = d)), c.cid ≠ d := by
  induction l with
  | nil => intro c hc; cases hc
  | cons e rest ih =>
    rw [List.map_cons, List.nodup_cons] at hnodup
    by_cases h : e.cid = d
    · rw [List.eraseP_cons_of_pos (by simpa using h)]
      intro c hc hcd
      exact hnodup.1 (h ▸ hcd ▸ List.mem_map_of_mem Client.cid hc)
    · rw [List.eraseP_cons_of_neg (by simpa using h)]
      intro c hc
      rcases List.mem_cons.1 hc with rfl | hc
      · exact h
      · exact ih hnodup.2 c hc

theorem handleClientMsg_send_eq (st : BridgeState) (a : String) (p : Nat)
    (xs : List Int) (now : Nat) :
    handleClientMsg st (.parsed ⟨some kindSend, a, p, .arr xs⟩) now =
      (st, [Action.udpOut a p (bufferFrom xs)]) := by
  simp only [handleClientMsg]
  simp

theorem handleClientMsg_noEcho_eq (st : BridgeState) (a : String) (p : Nat)
    (xs : List Int) (now : Nat) :
    handleClientMsg st (.parsed ⟨some kindSendNoEcho, a, p, .arr xs⟩) now =
      ({ st with sentMessages := mapSet (msgKey (bufferFrom xs)) now st.sentMessages },
        [Action.register (msgKey (bufferFrom xs)) now,
         Action.udpOut a p (bufferFrom xs)]) := by
  simp only [handleClientMsg]
  rw [if_neg (by decide)]
  simp

/-- A raw client frame the handler ignores: unparsable JSON, a
discriminator that is neither recognized kind, or a `data` value on which
the buffer construction throws. -/
def rejectedInput : RawInput → Prop
  | .notJson => True
  | .parsed m =>
      (m.type ≠ some kindSend ∧ m.type ≠ some kindSendNoEcho) ∨ m.data = .bad

theorem handleClientMsg_rejected {st : BridgeState} {raw : RawInput}
    {now : Nat} (h : rejectedInput raw) :
    handleClientMsg st raw now = (st, []) := by
  cases raw with
  | notJson => rfl
  | parsed m =>
    obtain ⟨t, a, p, d⟩ := m
    simp only [handleClientMsg]
    rcases h with ⟨h1, h2⟩ | hbad
    · rw [if_neg h1, if_neg h2]
    · cases d with
      | arr xs => cases hbad
      | bad =>
        by_cases h1 : t = some kindSend
        · rw [if_pos h1]
        · rw [if_neg h1]
          by_cases h2 : t = some kindSendNoEcho
          · rw [if_pos h2]
          · rw [if_neg h2]

theorem afterNoEcho_eq (st0 : BridgeState) (a : String) (p : Nat)
    (xs : List Int) (t0 : Nat) :
    afterNoEcho st0 a p xs t0 =
      { st0 with sentMessages := mapSet (msgKey (bufferFrom xs)) t0 st0.sentMessages } := by
  have h := handleClientMsg_noEcho_eq st0 a p xs t0
  calc afterNoEcho st0 a p xs t0
      = (handleClientMsg st0
          (.parsed ⟨some kindSendNoEcho, a, p, .arr xs⟩) t0).1 := rfl
    _ = _ := by rw [h]

/-- C2 counterexample: the message with kind `udp-send`, address
`192.168.1.255`, port 6454 and data `[256]` fails the specification's
field validation (256 is not in the range 0 to 255), yet the handler does
emit an outbound UDP datagram (with the entry coerced to 0) instead of
yielding a parse error — refuting that every validation failure yields no
outbound datagram. -/
theorem C2_validation_counterexample :
    specValid ⟨some kindSend, "192.168.1.255", 6454, .arr [256]⟩ = false ∧
    (step ⟨[], [⟨0, true⟩]⟩
        (.wsMessage (.parsed ⟨some kindSend, "192.168.1.255", 6454, .arr [256]⟩) 0)).2 =
      [Action.udpOut "192.168.1.255" 6454 [0]] := by
  constructor
  · decide
  · decide

/-- C2 (amended): for every incoming client message that is not valid
JSON, or whose kind discriminator is unrecognized, or whose `data` field
makes the buffer construction throw, the message is logged and ignored:
no outbound UDP datagram is emitted and no state changes — the suppression
table and the set of connections stay exactly as they were, so the
connection stays open and the relay keeps running.  (The code performs no
field-level validation; out-of-range integer data entries are coerced
modulo 256 and still emit a datagram.) -/
theorem C2_rejected_ignored (st : BridgeState) (raw : RawInput) (now : Nat)
    (h : rejectedInput raw) :
    step st (.wsMessage raw now) = (st, []) :=
  handleClientMsg_rejected h

theorem C2_rejected_ignored_witness :
    step (⟨[], [⟨0, true⟩]⟩ : BridgeState) (.wsMessage .notJson 5) =
      ((⟨[], [⟨0, true⟩]⟩ : BridgeState), []) ∧
    step (⟨[], [⟨0, true⟩]⟩ : BridgeState)
        (.wsMessage (.parsed ⟨some "unknown", "127.0.0.1", 6454, .arr [1]⟩) 5) =
      ((⟨[], [⟨0, true⟩]⟩ : BridgeState), []) :=
  ⟨C2_rejected_ignored ⟨[], [⟨0, true⟩]⟩ .notJson 5 trivial,
   C2_rejected_ignored ⟨[], [⟨0, true⟩]⟩
     (.parsed ⟨some "unknown", "127.0.0.1", 6454, .arr [1]⟩) 5
     (Or.inl ⟨by decide, by decide⟩)⟩

/-- C4: when a recognized send-without-echo request is processed, the
emitted action trace is exactly the suppression-table registration
followed by the UDP send — the registration strictly precedes the send —
and the state carried into the send already holds the entry, so an echo
of the payload arriving immediately after the send is suppressed for
every client. -/
theorem C4_register_before_send (st0 : BridgeState) (a : String) (p : Nat)
    (xs : List Int) (t0 : Nat) (r : RInfo) :
    (step st0 (.wsMessage (.parsed ⟨some kindSendNoEcho, a, p, .arr xs⟩) t0)).2 =
      [Action.register (msgKey (bufferFrom xs)) t0,
       Action.udpOut a p (bufferFrom xs)] ∧
    mapHas (msgKey (bufferFrom xs)) (afterNoEcho st0 a p xs t0).sentMessages = true ∧
    (step (afterNoEcho st0 a p xs t0) (.udpRecv r (bufferFrom xs))).2 = [] := by
  refine ⟨congrArg Prod.snd (handleClientMsg_noEcho_eq st0 a p xs t0), ?_, ?_⟩
  · rw [afterNoEcho_eq]
    exact mapHas_mapSet_self _ _ _
  · apply handleDatagram_suppressed
    rw [afterNoEcho_eq]
    exact mapHas_mapSet_self _ _ _

/-- C5: the suppression key is the byte sequence of the payload alone:
two inbound datagrams with identical payloads but arbitrary (possibly
different) source addresses and ports are pushed to exactly the same
clients, and whenever the payload is tracked both are suppressed — each
produces no push at all. -/
theorem C5_key_ignores_source (st : BridgeState) (r1 r2 : RInfo)
    (msg : Payload) :
    pushTargets ((step st (.udpRecv r1 msg)).2) =
      pushTargets ((step st (.udpRecv r2 msg)).2) ∧
    (mapHas (msgKey msg) st.sentMessages = true →
      (step st (.udpRecv r1 msg)).2 = [] ∧
      (step st (.udpRecv r2 msg)).2 = []) := by
  constructor
  · cases hb : mapHas (msgKey msg) st.sentMessages with
    | true =>
      show pushTargets ((handleDatagram st r1 msg).2) =
        pushTargets ((handleDatagram st r2 msg).2)
      rw [handleDatagram_suppressed hb, handleDatagram_suppressed hb]
    | false =>
      show pushTargets ((handleDatagram st r1 msg).2) =
        pushTargets ((handleDatagram st r2 msg).2)
      rw [handleDatagram_delivered hb, handleDatagram_delivered hb,
        pushTargets_fanout, pushTargets_fanout]
  · intro hb
    exact ⟨handleDatagram_suppressed hb, handleDatagram_suppressed hb⟩

theorem C5_key_ignores_source_witness :
    (step (⟨[([7], 3)], [⟨0, true⟩]⟩ : BridgeState)
      (.udpRecv ⟨"1.1.1.1", 1⟩ [7])).2 = [] ∧
    (step (⟨[([7], 3)], [⟨0, true⟩]⟩ : BridgeState)
      (.udpRecv ⟨"2.2.2.2", 2⟩ [7])).2 = [] :=
  (C5_key_ignores_source ⟨[([7], 3)], [⟨0, true⟩]⟩ ⟨"1.1.1.1", 1⟩
    ⟨"2.2.2.2", 2⟩ [7]).2 (by decide)

/-- C7: a plain `udp-send` message leaves the relay state (in particular
the suppression table) untouched and emits exactly the UDP send; hence an
inbound datagram with that payload, not being tracked, is delivered to
every currently open client exactly as received. -/
theorem C7_plain_send_no_suppression (st : BridgeState) (a : String)
    (p : Nat) (xs : List Int) (now : Nat) (r : RInfo)
    (hm : mapHas (msgKey (bufferFrom xs)) st.sentMessages = false) :
    step st (.wsMessage (.parsed ⟨some kindSend, a, p, .arr xs⟩) now) =
      (st, [Action.udpOut a p (bufferFrom xs)]) ∧
    (step st (.udpRecv r (bufferFrom xs))).2 =
      st.clients.filterMap (fun c =>
        if c.readyOpen then
          some (Action.wsPush c.cid ⟨r.address, r.port, bufferFrom xs⟩)
        else none) :=
  ⟨handleClientMsg_send_eq st a p xs now, handleDatagram_delivered hm⟩

theorem C7_plain_send_no_suppression_witness :
    step (⟨[], [⟨0, true⟩]⟩ : BridgeState)
        (.wsMessage (.parsed ⟨some kindSend, "255.255.255.255", 6454, .arr [5, 5, 5]⟩) 3) =
      ((⟨[], [⟨0, true⟩]⟩ : BridgeState),
        [Action.udpOut "255.255.255.255" 6454 [5, 5, 5]]) ∧
    (step (⟨[], [⟨0, true⟩]⟩ : BridgeState)
        (.udpRecv ⟨"10.0.0.2", 6454⟩ [5, 5, 5])).2 =
      [Action.wsPush 0 ⟨"10.0.0.2", 6454, [5, 5, 5]⟩] := by
  have h := C7_plain_send_no_suppression ⟨[], [⟨0, true⟩]⟩ "255.255.255.255"
    6454 [5, 5, 5] 3 ⟨"10.0.0.2", 6454⟩ (by decide)
  exact ⟨h.1, h.2.trans (by decide)⟩

/-- C10: for a recognized `udp-send` or `udp-send-no-echo` message whose
data is an array of integers, no entry is rejected: a datagram is emitted
whose bytes are the entries reduced modulo 256 (and on the no-echo path
that coerced payload is also what gets registered); in particular entries
256, -1 and 300 become bytes 0, 255 and 44. -/
theorem C10_data_coerced_mod256 (st : BridgeState) (a : String) (p : Nat)
    (xs : List Int) (now : Nat) :
    (step st (.wsMessage (.parsed ⟨some kindSend, a, p, .arr xs⟩) now)).2 =
      [Action.udpOut a p (xs.map (fun x => (x % 256).toNat))] ∧
    (step st (.wsMessage (.parsed ⟨some kindSendNoEcho, a, p, .arr xs⟩) now)).2 =
      [Action.register (msgKey (xs.map (fun x => (x % 256).toNat))) now,
       Action.udpOut a p (xs.map (fun x => (x % 256).toNat))] ∧
    bufferFrom [256, -1, 300] = [0, 255, 44] := by
  refine ⟨?_, ?_, by decide⟩
  · exact congrArg Prod.snd (handleClientMsg_send_eq st a p xs now)
  · exact congrArg Prod.snd (handleClientMsg_noEcho_eq st a p xs now)

/-- C1: after a payload is registered through the no-echo send path at
time `t0`, (a) as long as every interleaved event stays inside the 100 ms
window (client messages at or after `t0`, sweeps at most `t0 + 100`), an
inbound datagram with that payload is delivered to no client at all; and
(b) once a sweep runs strictly after the 100 ms mark, an inbound datagram
with that payload is delivered to every connected open client. -/
theorem C1_no_echo_window (st0 : BridgeState) (a : String) (p : Nat)
    (xs : List Int) (t0 : Nat) (events : List Event) (r r' : RInfo) (s : Nat)
    (hfresh : ∀ e ∈ st0.sentMessages, e.1 ≠ msgKey (bufferFrom xs))
    (hwin : ∀ e ∈ events, withinWindow t0 e)
    (hs : t0 + NO_ECHO_TIMEOUT < s) :
    (step (run (afterNoEcho st0 a p xs t0) events)
        (.udpRecv r (bufferFrom xs))).2 = [] ∧
    (∀ c ∈ st0.clients, c.readyOpen = true →
      Action.wsPush c.cid ⟨r'.address, r'.port, bufferFrom xs⟩ ∈
        (step (step (afterNoEcho st0 a p xs t0) (.sweep s)).1
          (.udpRecv r' (bufferFrom xs))).2) := by
  have hboot : tracked (msgKey (bufferFrom xs)) t0 (afterNoEcho st0 a p xs t0) := by
    rw [afterNoEcho_eq]
    exact ⟨t0, mem_mapSet_self _ _ _, le_refl t0⟩
  constructor
  · exact handleDatagram_suppressed (tracked_mapHas (tracked_run hboot hwin))
  · intro c hc hopen
    have hst2 : (step (afterNoEcho st0 a p xs t0) (.sweep s)).1 =
        (⟨sweepOnce s (mapSet (msgKey (bufferFrom xs)) t0 st0.sentMessages),
          st0.clients⟩ : BridgeState) := by
      rw [afterNoEcho_eq]
      rfl
    rw [hst2]
    exact push_mem_of_open hc hopen (mapHas_after_expire hfresh hs)

theorem C1_no_echo_window_witness :
    (step (run (afterNoEcho ⟨[], [⟨0, true⟩]⟩ "127.0.0.1" 6454 [1, 2, 3] 0)
        [.sweep 50])
      (.udpRecv ⟨"127.0.0.1", 50000⟩ (bufferFrom [1, 2, 3]))).2 = [] ∧
    (∀ c ∈ ((⟨[], [⟨0, true⟩]⟩ : BridgeState)).clients, c.readyOpen = true →
      Action.wsPush c.cid ⟨"127.0.0.1", 50000, bufferFrom [1, 2, 3]⟩ ∈
        (step (step (afterNoEcho ⟨[], [⟨0, true⟩]⟩ "127.0.0.1" 6454 [1, 2, 3] 0)
            (.sweep 101)).1
          (.udpRecv ⟨"127.0.0.1", 50000⟩ (bufferFrom [1, 2, 3]))).2) :=
  C1_no_echo_window ⟨[], [⟨0, true⟩]⟩ "127.0.0.1" 6454 [1, 2, 3] 0 [.sweep 50]
    ⟨"127.0.0.1", 50000⟩ ⟨"127.0.0.1", 50000⟩ 101
    (by intro e he; cases he)
    (by intro e he
        rw [List.mem_singleton] at he
        subst he
        show (50 : Nat) ≤ 0 + NO_ECHO_TIMEOUT
        decide)
    (by decide)

/-- C3: a client message whose kind discriminator equals
`udp-send-no-echo` with an integer-array data field is recognized as a
send-with-echo-suppression request: the coerced payload is registered and
sent, an inbound datagram with that exact payload then arriving (from any
source) is forwarded to no client, and a datagram with a different,
untracked payload arriving at the same time is forwarded normally to
every open client. -/
theorem C3_no_echo_recognized (st0 : BridgeState) (a : String) (p : Nat)
    (xs : List Int) (t0 : Nat) (r r' : RInfo) (q : Payload)
    (hq : mapHas (msgKey q) st0.sentMessages = false)
    (hne : msgKey q ≠ msgKey (bufferFrom xs)) :
    (step st0 (.wsMessage (.parsed ⟨some kindSendNoEcho, a, p, .arr xs⟩) t0)).2 =
      [Action.register (msgKey (bufferFrom xs)) t0,
       Action.udpOut a p (bufferFrom xs)] ∧
    (step (afterNoEcho st0 a p xs t0) (.udpRecv r (bufferFrom xs))).2 = [] ∧
    (step (afterNoEcho st0 a p xs t0) (.udpRecv r' q)).2 =
      st0.clients.filterMap (fun c =>
        if c.readyOpen then
          some (Action.wsPush c.cid ⟨r'.address, r'.port, q⟩)
        else none) := by
  refine ⟨congrArg Prod.snd (handleClientMsg_noEcho_eq st0 a p xs t0), ?_, ?_⟩
  · apply handleDatagram_suppressed
    rw [afterNoEcho_eq]
    exact mapHas_mapSet_self _ _ _
  · have hq' : mapHas (msgKey q) (afterNoEcho st0 a p xs t0).sentMessages = false := by
      rw [afterNoEcho_eq]
      show mapHas (msgKey q)
        (mapSet (msgKey (bufferFrom xs)) t0 st0.sentMessages) = false
      rw [mapHas_mapSet_of_ne hne]
      exact hq
    have h := handleDatagram_delivered (r := r') hq'
    rw [show (afterNoEcho st0 a p xs t0).clients = st0.clients from
      by rw [afterNoEcho_eq]] at h
    exact h

theorem C3_no_echo_recognized_witness :
    (step (⟨[], [⟨0, true⟩, ⟨1, true⟩]⟩ : BridgeState)
        (.wsMessage (.parsed ⟨some kindSendNoEcho, "127.0.0.1", 6454, .arr [1, 2, 3]⟩) 0)).2 =
      [Action.register (msgKey (bufferFrom [1, 2, 3])) 0,
       Action.udpOut "127.0.0.1" 6454 (bufferFrom [1, 2, 3])] ∧
    (step (afterNoEcho ⟨[], [⟨0, true⟩, ⟨1, true⟩]⟩ "127.0.0.1" 6454 [1, 2, 3] 0)
        (.udpRecv ⟨"127.0.0.1", 6454⟩ (bufferFrom [1, 2, 3]))).2 = [] ∧
    (step (afterNoEcho ⟨[], [⟨0, true⟩, ⟨1, true⟩]⟩ "127.0.0.1" 6454 [1, 2, 3] 0)
        (.udpRecv ⟨"10.1.1.1", 7777⟩ [9, 9, 9])).2 =
      ((⟨[], [⟨0, true⟩, ⟨1, true⟩]⟩ : BridgeState)).clients.filterMap (fun c =>
        if c.readyOpen then
          some (Action.wsPush c.cid ⟨"10.1.1.1", 7777, [9, 9, 9]⟩)
        else none) :=
  C3_no_echo_recognized ⟨[], [⟨0, true⟩, ⟨1, true⟩]⟩ "127.0.0.1" 6454
    [1, 2, 3] 0 ⟨"127.0.0.1", 6454⟩ ⟨"10.1.1.1", 7777⟩ [9, 9, 9]
    (by decide) (by decide)

/-- C6: an inbound datagram whose payload matches no tracked entry is
delivered exactly once, as an envelope carrying the datagram's source
address, source port and payload, to each currently open connected client
in order (the fan-out is exactly the filter-map over the connection
list); and after a client disconnects — its handler having been removed —
a later such datagram produces no push to that client. -/
theorem C6_fanout_exact (st : BridgeState) (r : RInfo) (msg : Payload)
    (d : Nat) (hm : mapHas (msgKey msg) st.sentMessages = false)
    (hnodup : (st.clients.map Client.cid).Nodup) :
    (step st (.udpRecv r msg)).2 =
      st.clients.filterMap (fun c =>
        if c.readyOpen then
          some (Action.wsPush c.cid ⟨r.address, r.port, msg⟩)
        else none) ∧
    ¬ pushedTo ((step (step st (.wsClose d)).1 (.udpRecv r msg)).2) d := by
  refine ⟨handleDatagram_delivered hm, ?_⟩
  rintro ⟨env, hmem⟩
  obtain ⟨c, hc, heq⟩ := List.mem_filterMap.1 hmem
  have ha := udpHandler_some heq
  injection ha with h1 h2
  exact eraseP_cid_not_mem hnodup c hc h1.symm

theorem C6_fanout_exact_witness :
    (step (⟨[], [⟨0, true⟩, ⟨1, true⟩]⟩ : BridgeState)
        (.udpRecv ⟨"10.0.0.1", 1234⟩ [5, 5, 5])).2 =
      ((⟨[], [⟨0, true⟩, ⟨1, true⟩]⟩ : BridgeState)).clients.filterMap (fun c =>
        if c.readyOpen then
          some (Action.wsPush c.cid ⟨"10.0.0.1", 1234, [5, 5, 5]⟩)
        else none) ∧
    ¬ pushedTo ((step (step (⟨[], [⟨0, true⟩, ⟨1, true⟩]⟩ : BridgeState)
          (.wsClose 1)).1
        (.udpRecv ⟨"10.0.0.1", 1234⟩ [5, 5, 5])).2) 1 :=
  C6_fanout_exact ⟨[], [⟨0, true⟩, ⟨1, true⟩]⟩ ⟨"10.0.0.1", 1234⟩ [5, 5, 5] 1
    (by decide) (by decide)

/-- C9: processing a `udp-send-no-echo` request registers the payload
unconditionally before the send: the send-completion callback (error or
not) leaves the state untouched, the suppression entry is present, and an
inbound datagram with that payload is still suppressed after the callback
and any sweep inside the 100 ms window — even though the underlying send
may have failed. -/
theorem C9_registration_survives_send_error (st0 : BridgeState) (a : String)
    (p : Nat) (xs : List Int) (t0 : Nat) (err : Bool) (r : RInfo) (s : Nat)
    (hs : s ≤ t0 + NO_ECHO_TIMEOUT) :
    (step (afterNoEcho st0 a p xs t0) (.sendResult err)).1 =
      afterNoEcho st0 a p xs t0 ∧
    mapHas (msgKey (bufferFrom xs))
      (afterNoEcho st0 a p xs t0).sentMessages = true ∧
    (step (run (afterNoEcho st0 a p xs t0) [.sendResult err, .sweep s])
        (.udpRecv r (bufferFrom xs))).2 = [] := by
  have hboot : tracked (msgKey (bufferFrom xs)) t0 (afterNoEcho st0 a p xs t0) := by
    rw [afterNoEcho_eq]
    exact ⟨t0, mem_mapSet_self _ _ _, le_refl t0⟩
  refine ⟨rfl, tracked_mapHas hboot, ?_⟩
  refine handleDatagram_suppressed (tracked_mapHas (tracked_run hboot ?_))
  intro e he
  rcases List.mem_cons.1 he with rfl | he
  · exact trivial
  · rw [List.mem_singleton] at he
    subst he
    exact hs

theorem C9_registration_survives_send_error_witness :
    (step (afterNoEcho ⟨[], [⟨0, true⟩]⟩ "127.0.0.1" 6454 [1, 2, 3] 0)
        (.sendResult true)).1 =
      afterNoEcho ⟨[], [⟨0, true⟩]⟩ "127.0.0.1" 6454 [1, 2, 3] 0 ∧
    mapHas (msgKey (bufferFrom [1, 2, 3]))
      (afterNoEcho ⟨[], [⟨0, true⟩]⟩ "127.0.0.1" 6454 [1, 2, 3] 0).sentMessages = true ∧
    (step (run (afterNoEcho ⟨[], [⟨0, true⟩]⟩ "127.0.0.1" 6454 [1, 2, 3] 0)
        [.sendResult true, .sweep 100])
      (.udpRecv ⟨"127.0.0.1", 9999⟩ (bufferFrom [1, 2, 3]))).2 = [] :=
  C9_registration_survives_send_error ⟨[], [⟨0, true⟩]⟩ "127.0.0.1" 6454
    [1, 2, 3] 0 true ⟨"127.0.0.1", 9999⟩ 100 (by decide)

end UdpWsBridge
